import Mathlib

/-!
Verification development for the Automation-Backend repository.

The definitions below are a shallow embedding of the task-processing
pipeline found in `Backend/services/llmServices.js` (class `LLMService`)
and in the Express server file (task routes, `executeN8nWorkflow`,
`processTaskWithGemini`).  JavaScript strings are modelled as Lean
`String` / `List Char`; promises/exceptions are modelled with `Except`
and `Option`; the external model and the external workflow engine are
modelled as explicit oracles.  Machine-level details that the code never
exercises (UTF-16 surrogate pairs, floating-point numeric values) are
modelled only as far as JSON truthiness requires.
-/

namespace AutomationBackend

/-! ## Generic string helpers (JS semantics) -/

/-- Boolean test: is `pat` a prefix of `hay`?  Mirrors the character-wise
comparison JS performs inside `String.prototype.includes`. -/
def isPrefixB : List Char → List Char → Bool
  | [], _ => true
  | _ :: _, [] => false
  | a :: as, b :: bs => a == b && isPrefixB as bs

/-- Boolean substring containment: JS `hay.includes(pat)` scans every
start position of `hay` for a prefix match of `pat`. -/
def containsB (pat : List Char) : List Char → Bool
  | [] => isPrefixB pat []
  | b :: bs => isPrefixB pat (b :: bs) || containsB pat bs

/-- JS `String.prototype.includes` on Lean strings. -/
def includes (hay pat : String) : Bool := containsB pat.data hay.data

/-- JS `String.prototype.toLowerCase` for the ASCII texts this code
handles: character-wise lowering. -/
def jsToLower (s : String) : String := String.mk (s.data.map Char.toLower)

/-! ## Model-Selection Heuristic (`analyzeComplexity`, `selectModel`)

Translated from `Backend/services/llmServices.js` lines 42–80. -/

/-- The `complexPatterns` keyword list, verbatim from the source. -/
def complexPatterns : List String :=
  ["analyze", "compare", "calculate", "process data", "machine learning",
   "ai", "complex logic", "multiple conditions", "workflow", "integration",
   "transform", "parse", "extract and process"]

/-- The `easyPatterns` keyword list, verbatim from the source. -/
def easyPatterns : List String :=
  ["send email", "post message", "simple notification", "basic alert",
   "reminder", "daily message", "weekly update", "fetch data"]

/-- `complexPatterns.filter(p => text.includes(p)).length` applied to the
lower-cased task text. -/
def complexScore (taskDescription : String) : Nat :=
  (complexPatterns.filter (fun p => includes (jsToLower taskDescription) p)).length

/-- `easyPatterns.filter(p => text.includes(p)).length` applied to the
lower-cased task text. -/
def easyScore (taskDescription : String) : Nat :=
  (easyPatterns.filter (fun p => includes (jsToLower taskDescription) p)).length

/-- `LLMService.analyzeComplexity`: lower-case the text, score both
keyword lists by substring containment, then apply the tier rule. -/
def analyzeComplexity (taskDescription : String) : String :=
  if complexScore taskDescription ≥ 2 then "complex"
  else if easyScore taskDescription ≥ 1 && complexScore taskDescription == 0 then "easy"
  else "intermediate"

/-- `LLMService.selectModel`: map the complexity tier to a Gemini model
identifier. -/
def selectModel (taskDescription : String) : String :=
  match analyzeComplexity taskDescription with
  | "easy" => "gemini-2.5-flash"
  | "intermediate" => "gemini-2.5-flash"
  | "complex" => "gemini-2.5-pro"
  | _ => "gemini-2.5-flash"

/-! ## JSON values and `JSON.parse`

`parseAndValidateResponse` runs the raw LLM text through
`JSON.parse`; we embed a JSON value type and a recursive-descent parser
for it.  Numbers keep their literal digits (sign, integer digits,
fraction digits, exponent) — that is all JS truthiness ever inspects.
Duplicate object keys follow `JSON.parse`: the last occurrence wins. -/

inductive Json where
  | jnull
  | jbool (b : Bool)
  | jnum (neg : Bool) (intDs fracDs : List Char) (expNeg : Bool) (expDs : List Char)
  | jstr (s : List Char)
  | jarr (elems : List Json)
  | jobj (fields : List (List Char × Json))
deriving Repr

/-- The opening-brace character (written by code point to keep string
literals brace-free). -/
def lbrace : Char := Char.ofNat 123

/-- The closing-brace character. -/
def rbrace : Char := Char.ofNat 125

/-- The backtick character used by Markdown code fences. -/
def backquote : Char := Char.ofNat 96

/-- The whitespace JSON.parse skips between tokens. -/
def isJsonWs (c : Char) : Bool :=
  c == ' ' || c == '\t' || c == '\n' || c == '\r'

def skipWs : List Char → List Char
  | [] => []
  | c :: cs => if isJsonWs c then skipWs cs else c :: cs

/-- Hexadecimal digit value, for string escapes. -/
def hexVal (c : Char) : Option Nat :=
  if '0' ≤ c ∧ c ≤ '9' then some (c.toNat - '0'.toNat)
  else if 'a' ≤ c ∧ c ≤ 'f' then some (c.toNat - 'a'.toNat + 10)
  else if 'A' ≤ c ∧ c ≤ 'F' then some (c.toNat - 'A'.toNat + 10)
  else none

/-- Parse the body of a JSON string after the opening quote, returning
the decoded characters and the remaining input. -/
def parseStringBody (cs : List Char) : Option (List Char × List Char) :=
  match cs with
  | [] => none
  | c :: cs' =>
    if c == '"' then some ([], cs')
    else if c == '\\' then
      match cs' with
      | [] => none
      | e :: rest =>
        if e == '"' || e == '\\' || e == '/' then
          (parseStringBody rest).map (fun r => (e :: r.1, r.2))
        else if e == 'b' then
          (parseStringBody rest).map (fun r => (Char.ofNat 8 :: r.1, r.2))
        else if e == 'f' then
          (parseStringBody rest).map (fun r => (Char.ofNat 12 :: r.1, r.2))
        else if e == 'n' then
          (parseStringBody rest).map (fun r => ('\n' :: r.1, r.2))
        else if e == 'r' then
          (parseStringBody rest).map (fun r => ('\r' :: r.1, r.2))
        else if e == 't' then
          (parseStringBody rest).map (fun r => ('\t' :: r.1, r.2))
        else if e == 'u' then
          match rest with
          | h1 :: h2 :: h3 :: h4 :: rest' =>
            match hexVal h1, hexVal h2, hexVal h3, hexVal h4 with
            | some a, some b, some c2, some d =>
              (parseStringBody rest').map
                (fun r => (Char.ofNat (((a * 16 + b) * 16 + c2) * 16 + d) :: r.1, r.2))
            | _, _, _, _ => none
          | _ => none
        else none
    else if c.toNat < 32 then none
    else (parseStringBody cs').map (fun r => (c :: r.1, r.2))

/-- Attach the optional exponent part to a numeric literal. -/
def parseExpPart (neg : Bool) (intDs fracDs : List Char) (cs : List Char) :
    Option (Json × List Char) :=
  match cs with
  | c :: rest =>
    if c == 'e' || c == 'E' then
      let p : Bool × List Char :=
        match rest with
        | d :: r2 =>
          if d == '+' then (false, r2)
          else if d == '-' then (true, r2)
          else (false, rest)
        | [] => (false, rest)
      let q := p.2.span Char.isDigit
      if q.1.isEmpty then none
      else some (.jnum neg intDs fracDs p.1 q.1, q.2)
    else some (.jnum neg intDs fracDs false [], cs)
  | [] => some (.jnum neg intDs fracDs false [], [])

/-- Attach the optional fraction part, then the exponent. -/
def parseFracPart (neg : Bool) (intDs : List Char) (cs : List Char) :
    Option (Json × List Char) :=
  match cs with
  | c :: rest =>
    if c == '.' then
      let q := rest.span Char.isDigit
      if q.1.isEmpty then none else parseExpPart neg intDs q.1 q.2
    else parseExpPart neg intDs [] cs
  | [] => parseExpPart neg intDs [] []

/-- Parse a JSON numeric literal (JSON grammar: an optional minus, `0`
or a nonzero-led digit run, optional fraction, optional exponent). -/
def parseNum (cs : List Char) : Option (Json × List Char) :=
  let p : Bool × List Char :=
    match cs with
    | c :: rest => if c == '-' then (true, rest) else (false, cs)
    | [] => (false, cs)
  match p.2 with
  | [] => none
  | c :: rest =>
    if c == '0' then parseFracPart p.1 ['0'] rest
    else if c.isDigit then
      let q := (c :: rest).span Char.isDigit
      parseFracPart p.1 q.1 q.2
    else none

mutual

/-- Recursive-descent JSON value parser, fuelled.  The fuel only bounds
nesting/element recursion; `jsonParse` supplies enough for any input. -/
def parseVal (fuel : Nat) (cs : List Char) : Option (Json × List Char) :=
  match fuel with
  | 0 => none
  | f + 1 =>
    match skipWs cs with
    | [] => none
    | c :: rest =>
      if c == 'n' then
        match rest with
        | 'u' :: 'l' :: 'l' :: r => some (.jnull, r)
        | _ => none
      else if c == 't' then
        match rest with
        | 'r' :: 'u' :: 'e' :: r => some (.jbool true, r)
        | _ => none
      else if c == 'f' then
        match rest with
        | 'a' :: 'l' :: 's' :: 'e' :: r => some (.jbool false, r)
        | _ => none
      else if c == '"' then
        (parseStringBody rest).map (fun r => (.jstr r.1, r.2))
      else if c == '[' then
        match skipWs rest with
        | c2 :: r2 => if c2 == ']' then some (.jarr [], r2) else parseArrItems f (c2 :: r2)
        | [] => none
      else if c == lbrace then
        match skipWs rest with
        | c2 :: r2 => if c2 == rbrace then some (.jobj [], r2) else parseObjItems f (c2 :: r2)
        | [] => none
      else parseNum (c :: rest)

/-- Parse the elements of a non-empty JSON array (after `[`). -/
def parseArrItems (fuel : Nat) (cs : List Char) : Option (Json × List Char) :=
  match fuel with
  | 0 => none
  | f + 1 =>
    match parseVal f cs with
    | none => none
    | some (v, rest) =>
      match skipWs rest with
      | c :: r2 =>
        if c == ',' then
          match parseArrItems f r2 with
          | some (.jarr xs, r3) => some (.jarr (v :: xs), r3)
          | _ => none
        else if c == ']' then some (.jarr [v], r2)
        else none
      | [] => none

/-- Parse the members of a non-empty JSON object (after the opening
brace). -/
def parseObjItems (fuel : Nat) (cs : List Char) : Option (Json × List Char) :=
  match fuel with
  | 0 => none
  | f + 1 =>
    match skipWs cs with
    | c :: rest =>
      if c == '"' then
        match parseStringBody rest with
        | none => none
        | some (key, r2) =>
          match skipWs r2 with
          | c2 :: r3 =>
            if c2 == ':' then
              match parseVal f r3 with
              | none => none
              | some (v, r4) =>
                match skipWs r4 with
                | c3 :: r5 =>
                  if c3 == ',' then
                    match parseObjItems f r5 with
                    | some (.jobj fs, r6) => some (.jobj ((key, v) :: fs), r6)
                    | _ => none
                  else if c3 == rbrace then some (.jobj [(key, v)], r5)
                  else none
                | [] => none
            else none
          | [] => none
      else none
    | [] => none

end

/-- `JSON.parse`: parse a complete value with only whitespace around it.
Fuel `2 * length + 2` dominates the nesting/element recursion depth
(every two fuel decrements consume at least one input character). -/
def jsonParse (cs : List Char) : Option Json :=
  match parseVal (2 * cs.length + 2) cs with
  | some (v, rest) => if (skipWs rest).isEmpty then some v else none
  | none => none

/-! ## Response Validator/Parser (`parseAndValidateResponse`)

Translated from `Backend/services/llmServices.js` lines 220–258. -/

/-- Drop the single optional newline the `\n?` of the fence regexes
consumes greedily after a marker match. -/
def dropLeadingNewline (cs : List Char) : List Char :=
  match cs with
  | c :: rest => if c == '\n' then rest else cs
  | [] => []

/-- One left-to-right pass of `response.replace(/` three backticks then
`json\n?/g, '')`: on a match the marker (and one following newline, if
any) is dropped and scanning resumes after it.  Structurally recursive
on a fuel that the wrapper sets to the input length, which every
recursion path strictly outpaces (each step consumes at least one
character), so the fuel-exhausted arm is unreachable. -/
def stripFenceJsonF (fuel : Nat) (cs : List Char) : List Char :=
  match fuel with
  | 0 => cs
  | f + 1 =>
    match cs with
    | c1 :: c2 :: c3 :: c4 :: c5 :: c6 :: c7 :: rest =>
      if c1 == backquote && c2 == backquote && c3 == backquote &&
         c4 == 'j' && c5 == 's' && c6 == 'o' && c7 == 'n' then
        stripFenceJsonF f (dropLeadingNewline rest)
      else c1 :: stripFenceJsonF f (c2 :: c3 :: c4 :: c5 :: c6 :: c7 :: rest)
    | c :: cs' => c :: stripFenceJsonF f cs'
    | [] => []

def stripFenceJson (cs : List Char) : List Char := stripFenceJsonF cs.length cs

/-- One pass of `.replace(/` three backticks then `\n?/g, '')`, fuelled
the same way. -/
def stripFenceF (fuel : Nat) (cs : List Char) : List Char :=
  match fuel with
  | 0 => cs
  | f + 1 =>
    match cs with
    | c1 :: c2 :: c3 :: rest =>
      if c1 == backquote && c2 == backquote && c3 == backquote then
        stripFenceF f (dropLeadingNewline rest)
      else c1 :: stripFenceF f (c2 :: c3 :: rest)
    | c :: cs' => c :: stripFenceF f cs'
    | [] => []

def stripFence (cs : List Char) : List Char := stripFenceF cs.length cs

/-- Whitespace removed by JS `String.prototype.trim` (the code points
the repository's texts can contain). -/
def isJsTrimWs (c : Char) : Bool :=
  c == ' ' || c == '\t' || c == '\n' || c == '\r' ||
  c == Char.ofNat 11 || c == Char.ofNat 12 || c == Char.ofNat 160 ||
  c == Char.ofNat 65279

/-- JS `String.prototype.trim` on character lists. -/
def jsTrimL (cs : List Char) : List Char :=
  ((cs.dropWhile isJsTrimWs).reverse.dropWhile isJsTrimWs).reverse

/-- The `.replace(...).replace(...).trim()` chain at the top of
`parseAndValidateResponse`. -/
def cleanResponse (cs : List Char) : List Char :=
  jsTrimL (stripFence (stripFenceJson cs))

/-- The greedy regex match against the brace-to-brace span: the match
starts at the first opening brace that precedes the last closing brace
and ends at that last closing brace; with no such pair the input is kept
unchanged (the regex `match` returns null and `cleanedResponse` stays as
it was). -/
def extractJsonSpan (cs : List Char) : List Char :=
  match cs.findIdx? (fun c => c == lbrace) with
  | none => cs
  | some i =>
    match cs.reverse.findIdx? (fun c => c == rbrace) with
    | none => cs
    | some k =>
      let j := cs.length - 1 - k
      if i < j then (cs.drop i).take (j - i + 1) else cs

/-- The `automatable` key. -/
def automatableKey : List Char := "automatable".data

/-- The `workflow` key. -/
def workflowKey : List Char := "workflow".data

/-- The `reason` key. -/
def reasonKey : List Char := "reason".data

/-- JS property read `v.key` on a parsed JSON value: found only on
objects; `JSON.parse` keeps the last duplicate key, so the lookup takes
the last matching member. -/
def jGet (v : Json) (key : List Char) : Option Json :=
  match v with
  | .jobj fields => (fields.reverse.find? (fun p => p.1 == key)).map Prod.snd
  | _ => none

/-- JS truthiness of a JSON value: `null`, `false`, zero and the empty
string are falsy; arrays and objects are always truthy. -/
def jsTruthy : Json → Bool
  | .jnull => false
  | .jbool b => b
  | .jnum _ intDs fracDs _ _ => (intDs ++ fracDs).any (fun d => d != '0')
  | .jstr s => !s.isEmpty
  | .jarr _ => true
  | .jobj _ => true

/-- JS truthiness of a possibly-absent property (`undefined` is falsy). -/
def truthyOpt : Option Json → Bool
  | none => false
  | some v => jsTruthy v

/-- The single error taxonomy every failure of the validator is wrapped
into. -/
def invalidResponsePrefix : String := "Invalid JSON response from Gemini: "

/-- Is the parsed value the JSON `null`?  A property read on it throws
`TypeError` in JS. -/
def isNullJ : Json → Bool
  | .jnull => true
  | _ => false

/-- The validation block of `parseAndValidateResponse` (lines 239–251):
`typeof parsed.automatable !== 'boolean'`, `parsed.automatable &&
!parsed.workflow`, `!parsed.automatable && !parsed.reason` — the last
two test the property by truthiness. -/
def validateParsed (parsed : Json) : Except String Json :=
  if isNullJ parsed then .error (invalidResponsePrefix ++ "TypeError")
  else
    match jGet parsed automatableKey with
    | some (.jbool b) =>
      if b then
        if truthyOpt (jGet parsed workflowKey) then .ok parsed
        else .error (invalidResponsePrefix ++
          "Invalid response format: missing workflow for automatable task")
      else
        if truthyOpt (jGet parsed reasonKey) then .ok parsed
        else .error (invalidResponsePrefix ++
          "Invalid response format: missing reason for non-automatable task")
    | _ => .error (invalidResponsePrefix ++
        "Invalid response format: missing automatable field")

/-- `LLMService.parseAndValidateResponse` (lines 220–258): strip code
fences, trim, extract the first-brace-to-last-brace span, `JSON.parse`
it, then validate.  Every failure — including the engine-specific
`SyntaxError` text of a failed `JSON.parse`, abstracted here to its
class name — is rethrown under the single `invalidResponsePrefix`
taxonomy. -/
def parseAndValidateResponse (response : String) : Except String Json :=
  match jsonParse (extractJsonSpan (cleanResponse response.data)) with
  | none => .error (invalidResponsePrefix ++ "SyntaxError")
  | some parsed => validateParsed parsed

/-- The validation condition under which `parseAndValidateResponse`
accepts a parsed value: a boolean `automatable` member, and a truthy
`workflow` (when true) or a truthy `reason` (when false). -/
def validShape (v : Json) : Bool :=
  match jGet v automatableKey with
  | some (.jbool b) =>
    if b then truthyOpt (jGet v workflowKey) else truthyOpt (jGet v reasonKey)
  | _ => false

/-! ## LLM Client (`callGemini`)

`llmServices.js` defines `callGemini` twice inside the same class body:
once at lines 13–39 with a retry loop (`retries = 3`, `delay = 30000`,
retry only on `error.status === 503`), and once at lines 161–180 with a
single attempt.  JavaScript class bodies assign methods in order, so the
second definition overwrites the first on the prototype: the method the
instance actually calls is the single-attempt one.  Both are embedded. -/

/-- Outcome of one external model call, indexed by attempt number via an
oracle.  A failure carries the `error.status` HTTP code (when the SDK
sets one) and the error message. -/
inductive CallOutcome where
  | ok (text : String)
  | err (status : Option Nat) (msg : String)

/-- Result of a `callGemini` run: the value returned or the error
thrown, plus the observable effects — how many external calls were made
and how many fixed delays were slept.  `none` as the outcome is the
JS `undefined` a fully exhausted loop would fall through to. -/
structure CallTrace where
  outcome : Option (Except String String)
  calls : Nat
  delays : Nat
deriving Repr

/-- The retry loop of the first (shadowed) `callGemini` definition,
lines 14–38: one iteration per attempt from `attempt` to `retries`;
status 503 with attempts remaining sleeps `delayMs` and continues; any
other failure throws the wrapped message at once. -/
def callGeminiLoop (oracle : Nat → CallOutcome) (retries attempt : Nat) :
    Nat → CallTrace
  | 0 => ⟨none, 0, 0⟩
  | f + 1 =>
    match oracle attempt with
    | .ok t => ⟨some (.ok t), 1, 0⟩
    | .err status msg =>
      if status = some 503 ∧ attempt < retries then
        let r := callGeminiLoop oracle retries (attempt + 1) f
        ⟨r.outcome, r.calls + 1, r.delays + 1⟩
      else ⟨some (.error ("Failed to call Gemini API: " ++ msg)), 1, 0⟩

/-- The first `callGemini` definition (lines 13–39), with its default
arguments `retries = 3`, `delay = 30000` ms.  The loop runs `attempt`
from 1 while `attempt <= retries`, so its iteration count is the
`retries + 1 - attempt` fuel passed here (the fuel-exhausted arm is the
JS `undefined` fall-through of a loop that never returns).  Shadowed by
the later duplicate definition, so never reachable from an `LLMService`
instance. -/
def callGeminiFirstDef (oracle : Nat → CallOutcome) : CallTrace :=
  callGeminiLoop oracle 3 1 3

/-- The second `callGemini` definition (lines 161–180) — the one the
class actually exposes: a single external call; any failure is wrapped
and rethrown immediately, with no retry and no delay. -/
def callGemini (oracle : Nat → CallOutcome) : CallTrace :=
  match oracle 1 with
  | .ok t => ⟨some (.ok t), 1, 0⟩
  | .err _ msg => ⟨some (.error ("Failed to call Gemini API: " ++ msg)), 1, 0⟩

/-! ## `processTask` -/

/-- The object `processTask` resolves with: `success`, `provider` and
`model` (absent on failure), the validated-or-fallback `result`, and the
error message (absent on success). -/
structure ProcessResult where
  success : Bool
  provider : Option String
  model : Option String
  result : Json
  error : Option String
deriving Repr

/-- The hard-coded fallback decision object `processTask` returns when
anything in the call/parse chain throws (lines 210–214). -/
def fallbackResult : Json :=
  .jobj
    [(automatableKey, .jbool false),
     (reasonKey, .jstr "Failed to process task with Gemini AI".data),
     ("suggestions".data, .jarr
       [.jstr "Please try rephrasing your task".data,
        .jstr "Make your request more specific".data,
        .jstr "Contact support if the issue persists".data])]

/-- `LLMService.processTask` (lines 183–217): select the model, call the
(effective, single-attempt) `callGemini`, parse/validate, and catch any
failure into a `success:false` envelope carrying `fallbackResult`. -/
def processTask (oracle : Nat → CallOutcome) (taskDescription : String) :
    ProcessResult :=
  let modelName := selectModel taskDescription
  match (callGemini oracle).outcome with
  | some (.ok response) =>
    match parseAndValidateResponse response with
    | .ok parsed =>
      ⟨true, some "google", some modelName, parsed, none⟩
    | .error e =>
      ⟨false, none, none, fallbackResult, some e⟩
  | some (.error e) =>
    ⟨false, none, none, fallbackResult, some e⟩
  | none =>
    ⟨false, none, none, fallbackResult, some "Cannot read properties of undefined"⟩

/-! ## Task records and the server state

The Express server file persists `Task` rows through Prisma with fields
`id, email, task, status, result, type` (timestamps managed by the
schema).  `result` is a nullable string column holding `JSON.stringify`
of one of four object shapes; we model it structurally, one constructor
per `JSON.stringify` site, with the ISO timestamp passed in as an
abstract string. -/

/-- A thrown JS error as the orchestrator observes it: `error.message`
and `error.stack`. -/
structure JsError where
  message : String
  stack : String
deriving Repr, DecidableEq

/-- The four shapes written into `task.result`. -/
inductive ResultPayload where
  /-- The `completed` write (lines 342–349): gemini_response, provider,
  model, workflow_generated, n8n_workflow_id, timestamp. -/
  | completedP (geminiResponse : Json) (provider : String) (model : Option String)
      (n8nWorkflowId : String) (timestamp : String)
  /-- The declined-style write (lines 362–368): gemini_response,
  provider, model, reason, timestamp. -/
  | declinedP (geminiResponse : Json) (provider : String) (model : Option String)
      (reason : Json) (timestamp : String)
  /-- The pipeline-error write (lines 384–388): error message, stack
  trace, timestamp. -/
  | errorP (error : String) (stack : String) (timestamp : String)
  /-- The creation-failure write (line 260): a plain string, not
  stringified JSON. -/
  | creationFailedP (text : String)
deriving Repr

/-- One Task row. -/
structure Task where
  id : Nat
  email : String
  task : String
  status : String
  result : Option ResultPayload
  type : String
deriving Repr

/-- The task table plus the autoincrement counter. -/
structure ServerState where
  tasks : List Task
  nextId : Nat

/-- Prisma `task.update({ where: { id }, data: f })` when the row
exists; on a missing id the real call rejects (P2025) — callers below
check for presence first, matching each route's own findUnique guard or
the exception analysis documented at `processTaskWithGemini`. -/
def updateTask (ts : List Task) (id : Nat) (f : Task → Task) : List Task :=
  ts.map (fun t => if t.id == id then f t else t)

/-- Prisma `task.findUnique({ where: { id } })`. -/
def getTask (ts : List Task) (id : Nat) : Option Task :=
  ts.find? (fun t => t.id == id)

/-! ## Workflow Dispatcher (`executeN8nWorkflow`)

Lines 273–316 of the server file.  The function body posts to the n8n
API with `axios.post` — but the server file never imports `axios`: its
module header pulls in only express, PrismaClient, cors, bcryptjs,
jsonwebtoken, cookie-parser, the auth middleware, and LLMService.  In a
Node ES
module an unbound identifier raises `ReferenceError: axios is not
defined` when evaluated, which the function's `catch` logs and
rethrows.  So: with no API key configured it throws the configuration
error before any network activity; with a key configured it throws the
`ReferenceError` — also before any network activity, since the request
is never built.  The returned `Nat` counts HTTP calls actually made. -/

def executeN8nWorkflow (n8nApiKey : Option String) (workflow : Json) (taskId : Nat) :
    Except JsError String × Nat :=
  match n8nApiKey, workflow, taskId with
  | none, _, _ =>
    (.error ⟨"N8N_API_KEY not configured in environment variables",
             "Error: N8N_API_KEY not configured in environment variables"⟩, 0)
  | some _, _, _ =>
    (.error ⟨"axios is not defined", "ReferenceError: axios is not defined"⟩, 0)

/-! ## Task Pipeline Orchestrator (`processTaskWithGemini`)

Lines 319–396.  Exception analysis behind this total model: the only
`await`s that can throw inside the `try` are the Prisma updates (only
when the row id is missing, P2025) and `executeN8nWorkflow`
(`llmService.processTask` catches internally and always resolves).  If
the id is missing, the first update throws, the catch's own update
throws too and is swallowed, so the state is unchanged.  If the id is
present, every later update succeeds, so the catch is reached exactly
when the dispatcher throws. -/

/-- The `reason` fallback of the declined write:
`geminiResult.result.reason || 'Gemini AI processing failed'`. -/
def declinedReason (g : ProcessResult) : Json :=
  match jGet g.result reasonKey with
  | some v => if jsTruthy v then v else .jstr "Gemini AI processing failed".data
  | none => .jstr "Gemini AI processing failed".data

/-- The branch of `processTaskWithGemini` after the in-progress write
and the `processTask` call: dispatch-and-complete when the decision is
automatable (the catch turning a dispatcher throw into the
processing-error write), else the declined write. -/
def pipelineFinish (g : ProcessResult) (n8nApiKey : Option String) (now : String)
    (ts1 : List Task) (taskId : Nat) : List Task :=
  if g.success && truthyOpt (jGet g.result automatableKey) then
    match executeN8nWorkflow n8nApiKey
        ((jGet g.result workflowKey).getD .jnull) taskId with
    | (.ok workflowId, _) =>
      updateTask ts1 taskId (fun t =>
        { t with status := "completed",
                 result := some (.completedP g.result "google" g.model workflowId now),
                 type := "automatable" })
    | (.error e, _) =>
      updateTask ts1 taskId (fun t =>
        { t with status := "failed",
                 result := some (.errorP e.message e.stack now),
                 type := "processing_error" })
  else
    updateTask ts1 taskId (fun t =>
      { t with status := "failed",
               result := some (.declinedP g.result "google" g.model (declinedReason g) now),
               type := "not_automatable" })

def processTaskWithGemini (llmOracle : Nat → CallOutcome) (n8nApiKey : Option String)
    (now : String) (ts : List Task) (taskId : Nat) (taskDescription : String) :
    List Task :=
  if ts.any (fun t => t.id == taskId) then
    pipelineFinish (processTask llmOracle taskDescription) n8nApiKey now
      (updateTask ts taskId
        (fun t => { t with status := "in-progress", type := "gemini_processing" }))
      taskId
  else ts

/-! ## HTTP routes touching tasks -/

/-- JS `String.prototype.trim` on strings. -/
def jsTrim (s : String) : String := String.mk (jsTrimL s.data)

/-- Synchronous response of `POST /api/task` (the asynchronous pipeline
kick-off is modelled separately by `processTaskWithGemini`). -/
inductive CreateResult where
  | created (t : Task)
  | badRequest (msg : String)
  | unauthorized
deriving Repr

/-- `POST /api/task` (lines 210–249): validate the text, insert the row
with status `pending`, null `result`, type `gemini_processing`, and
respond 201 before the pipeline work begins. -/
def createTaskRoute (s : ServerState) (email : String) (task : Option String) :
    CreateResult × ServerState :=
  if email == "" then (.unauthorized, s)
  else
    match task with
    | none => (.badRequest "Task content is required", s)
    | some tk =>
      if jsTrim tk == "" then (.badRequest "Task content is required", s)
      else if (jsTrim tk).length < 3 then
        (.badRequest "Task content must be at least 3 characters long", s)
      else
        let newTask : Task :=
          ⟨s.nextId, email, jsTrim tk, "pending", none, "gemini_processing"⟩
        (.created newTask, ⟨s.tasks ++ [newTask], s.nextId + 1⟩)

/-- Response of the ownership-guarded mutation routes. -/
inductive RouteResult where
  | ok
  | invalidStatus
  | notFound
  | forbidden
deriving Repr, DecidableEq

/-- `PATCH /api/task/:id/status` (lines 488–522): validate the status
value against the four-element list, check existence and ownership, then
update the status column only — `result` is left as it was. -/
def patchStatusRoute (s : ServerState) (email : String) (taskId : Nat)
    (status : String) : RouteResult × ServerState :=
  if !(["pending", "in-progress", "completed", "failed"].contains status) then
    (.invalidStatus, s)
  else
    match getTask s.tasks taskId with
    | none => (.notFound, s)
    | some t =>
      if t.email != email then (.forbidden, s)
      else (.ok, ⟨updateTask s.tasks taskId (fun u => { u with status := status }),
                  s.nextId⟩)

/-- `POST /api/task/:id/retry` (lines 525–559): check existence and
ownership, reset the row to `pending` with `result: null` and type
`retry`, respond, then re-run the pipeline on the stored task text. -/
def retryRoute (llmOracle : Nat → CallOutcome) (n8nApiKey : Option String)
    (now : String) (s : ServerState) (email : String) (taskId : Nat) :
    RouteResult × ServerState :=
  match getTask s.tasks taskId with
  | none => (.notFound, s)
  | some t =>
    if t.email != email then (.forbidden, s)
    else
      let ts1 := updateTask s.tasks taskId (fun u =>
        { u with status := "pending", result := none, type := "retry" })
      (.ok, ⟨processTaskWithGemini llmOracle n8nApiKey now ts1 taskId t.task,
             s.nextId⟩)

/-! ## Oracles and the status/result invariant used by the claim
theorems -/

/-- An external-model oracle that reports the retryable overload status
(HTTP 503) on attempts 1 and 2 and succeeds on attempt 3. -/
def overloadTwiceOracle : Nat → CallOutcome := fun attempt =>
  if attempt ≤ 2 then .err (some 503) "The model is overloaded" else .ok "RAW"

/-- An external-model oracle that always fails with a non-retryable
status. -/
def nonRetryableOracle : Nat → CallOutcome := fun _ =>
  .err (some 400) "Bad request"

/-- The spec invariant: `result` is non-null iff `status` is a terminal
one. -/
def resultStatusInv (t : Task) : Bool :=
  t.result.isSome == (t.status == "completed" || t.status == "failed")

/-- An external-model oracle whose call always fails (non-retryably). -/
def llmFailOracle : Nat → CallOutcome := fun _ => .err none "boom"

/-- An external-model oracle returning a well-formed automatable
decision with a workflow object. -/
def llmOkOracle : Nat → CallOutcome := fun _ =>
  .ok "\x7b\"automatable\": true, \"workflow\": \x7b\"name\": \"w\"\x7d\x7d"

/-! ## Helper lemmas -/

theorem isPrefixB_map (f : Char → Char) :
    ∀ pat hay : List Char, isPrefixB pat hay = true →
      isPrefixB (pat.map f) (hay.map f) = true := by
  intro pat
  induction pat with
  | nil => intro hay _; simp [isPrefixB]
  | cons a as ih =>
    intro hay h
    cases hay with
    | nil => simp [isPrefixB] at h
    | cons b bs =>
      simp only [isPrefixB, Bool.and_eq_true, beq_iff_eq] at h
      simpa [isPrefixB, h.1] using ih bs h.2

theorem containsB_map (f : Char → Char) (pat : List Char) :
    ∀ hay : List Char, containsB pat hay = true →
      containsB (pat.map f) (hay.map f) = true := by
  intro hay
  induction hay with
  | nil =>
    intro h
    cases pat with
    | nil => simp [containsB, isPrefixB]
    | cons a as => simp [containsB, isPrefixB] at h
  | cons b bs ih =>
    intro h
    simp only [containsB, Bool.or_eq_true] at h ⊢
    rcases h with h | h
    · exact Or.inl (isPrefixB_map f _ _ h)
    · exact Or.inr (ih h)

/-- A raw occurrence of a fully-lowercase pattern survives
`toLowerCase`. -/
theorem includes_jsToLower (s p : String)
    (hlow : p.data.map Char.toLower = p.data)
    (h : includes s p = true) : includes (jsToLower s) p = true := by
  have := containsB_map Char.toLower p.data s.data h
  rw [hlow] at this
  simpa [includes, jsToLower] using this

theorem analyzeComplexity_total (s : String) :
    analyzeComplexity s = "complex" ∨ analyzeComplexity s = "easy" ∨
      analyzeComplexity s = "intermediate" := by
  unfold analyzeComplexity
  split
  · exact Or.inl rfl
  · split
    · exact Or.inr (Or.inl rfl)
    · exact Or.inr (Or.inr rfl)

/-! ## Claims about the Response Validator/Parser (C6, C10) -/

theorem validateParsed_ok_iff (p v : Json) :
    validateParsed p = .ok v ↔ p = v ∧ validShape p = true := by
  unfold validateParsed validShape
  by_cases hn : isNullJ p = true
  · rw [if_pos hn]
    constructor
    · intro h; exact absurd h (by simp)
    · rintro ⟨rfl, hs⟩
      cases p <;> first
        | simp [jGet] at hs
        | simp [isNullJ] at hn
  · rw [if_neg hn]
    cases hg : jGet p automatableKey with
    | none => simp [hg]
    | some w =>
      cases w with
      | jbool b =>
        cases b with
        | false => cases ht : truthyOpt (jGet p reasonKey) <;> simp [hg, ht]
        | true => cases ht : truthyOpt (jGet p workflowKey) <;> simp [hg, ht]
      | jnull => simp [hg]
      | jnum a b c d e => simp [hg]
      | jstr a => simp [hg]
      | jarr a => simp [hg]
      | jobj a => simp [hg]

/-- C6 (amended): `parseAndValidateResponse` succeeds, returning the
parsed object unchanged, exactly when the cleaned/extracted span parses
as JSON to a value whose `automatable` member is a boolean and whose
`workflow` (when automatable) or `reason` (when not) is present AND
truthy; every other input fails under the single invalid-response
taxonomy. -/
theorem C6_parse_validate_amended (s : String) (v : Json) :
    parseAndValidateResponse s = .ok v ↔
      (jsonParse (extractJsonSpan (cleanResponse s.data)) = some v ∧
       validShape v = true) := by
  unfold parseAndValidateResponse
  cases hp : jsonParse (extractJsonSpan (cleanResponse s.data)) with
  | none => simp
  | some p =>
    rw [validateParsed_ok_iff]
    constructor
    · rintro ⟨rfl, h⟩; exact ⟨rfl, h⟩
    · rintro ⟨h1, h2⟩
      injection h1 with h1
      exact ⟨h1, h1 ▸ h2⟩

/-- C6 witness: a shape-valid response is returned unchanged. -/
theorem C6_witness :
    parseAndValidateResponse "\x7b\"automatable\": false, \"reason\": \"no\"\x7d" =
      .ok (.jobj [(automatableKey, .jbool false), (reasonKey, .jstr "no".data)]) :=
  (C6_parse_validate_amended _ _).mpr ⟨rfl, rfl⟩

/-- C6 counterexample: on `&lbrace;"automatable": true, "workflow": null&rbrace;`
the JSON parse succeeds and the `workflow` field IS present (with value
`null`), yet the validator raises the invalid-response error — refuting
"fails ... automatable is true without a workflow field; otherwise it
returns the parsed object unchanged". -/
theorem C6_counterexample_present_but_falsy_workflow :
    (parseAndValidateResponse
        "\x7b\"automatable\": true, \"workflow\": null\x7d").isOk = false ∧
    jsonParse (extractJsonSpan (cleanResponse
        "\x7b\"automatable\": true, \"workflow\": null\x7d".data)) =
      some (.jobj [(automatableKey, .jbool true), (workflowKey, .jnull)]) ∧
    jGet (.jobj [(automatableKey, .jbool true), (workflowKey, .jnull)]) workflowKey =
      some .jnull :=
  ⟨rfl, rfl, rfl⟩

/-- C10: the `workflow` and `reason` checks are truthiness tests, not
presence tests: a present-but-falsy `workflow` (`null`, `false`, `0` or
`""`) under `automatable: true`, and a present-but-empty `reason` under
`automatable: false`, are all rejected even though the field is present
in the parsed object. -/
theorem C10_truthiness_not_presence :
    (parseAndValidateResponse
        "\x7b\"automatable\": true, \"workflow\": null\x7d").isOk = false ∧
    (parseAndValidateResponse
        "\x7b\"automatable\": true, \"workflow\": false\x7d").isOk = false ∧
    (parseAndValidateResponse
        "\x7b\"automatable\": true, \"workflow\": 0\x7d").isOk = false ∧
    (parseAndValidateResponse
        "\x7b\"automatable\": true, \"workflow\": \"\"\x7d").isOk = false ∧
    (parseAndValidateResponse
        "\x7b\"automatable\": false, \"reason\": \"\"\x7d").isOk = false ∧
    ((jsonParse "\x7b\"automatable\": true, \"workflow\": false\x7d".data).bind
        (fun v => jGet v workflowKey) = some (.jbool false)) ∧
    ((jsonParse "\x7b\"automatable\": false, \"reason\": \"\"\x7d".data).bind
        (fun v => jGet v reasonKey) = some (.jstr [])) :=
  ⟨rfl, rfl, rfl, rfl, rfl, rfl, rfl⟩

/-! ## Claims about the Model-Selection Heuristic (C4, C5, C9) -/

theorem filter_length_two_of_first_two {p : String → Bool} {a b : String}
    (rest : List String) (ha : p a = true) (hb : p b = true) :
    2 ≤ ((a :: b :: rest).filter p).length := by
  simp [List.filter_cons, ha, hb]

/-- Texts containing both complex keywords score at least 2. -/
theorem complexScore_ge_two (s : String)
    (ha : includes s "analyze" = true) (hc : includes s "compare" = true) :
    2 ≤ complexScore s := by
  have ha' := includes_jsToLower s "analyze" (by decide) ha
  have hc' := includes_jsToLower s "compare" (by decide) hc
  unfold complexScore complexPatterns
  exact filter_length_two_of_first_two _ ha' hc'

/-- C5: for every task description text, `analyzeComplexity` follows the
documented decision rule over the two keyword-match counts, and is total
over the three tiers.  (The counts are substring matches of the fixed
keyword lists against the lower-cased text, by definition of
`complexScore`/`easyScore`.) -/
theorem C5_analyzeComplexity_decision_rule (s : String) :
    (analyzeComplexity s =
      if 2 ≤ complexScore s then "complex"
      else if 1 ≤ easyScore s ∧ complexScore s = 0 then "easy"
      else "intermediate") ∧
    (analyzeComplexity s = "complex" ∨ analyzeComplexity s = "easy" ∨
      analyzeComplexity s = "intermediate") := by
  refine ⟨?_, analyzeComplexity_total s⟩
  unfold analyzeComplexity
  by_cases h1 : 2 ≤ complexScore s
  · rw [if_pos h1, if_pos h1]
  · rw [if_neg h1, if_neg h1]
    by_cases h2 : complexScore s = 0
    · by_cases h3 : 1 ≤ easyScore s
      · simp [h2, h3]
      · simp [h2, h3]
    · simp [h2]

/-- C5 witness: the rule evaluated at a concrete text. -/
theorem C5_witness :
    analyzeComplexity "hello" =
      (if 2 ≤ complexScore "hello" then "complex"
       else if 1 ≤ easyScore "hello" ∧ complexScore "hello" = 0 then "easy"
       else "intermediate") :=
  (C5_analyzeComplexity_decision_rule "hello").1

/-- C4 counterexample: the text "send email" does NOT select the easy
tier — the complex keyword "ai" occurs inside "email", so the complex
count is 1, which blocks the easy rule; the tier is intermediate. -/
theorem C4_counterexample_send_email :
    analyzeComplexity "send email" = "intermediate" ∧
    includes (jsToLower "send email") "ai" = true ∧
    complexScore "send email" = 1 ∧
    easyScore "send email" = 1 := by
  refine ⟨rfl, rfl, rfl, rfl⟩

/-- C4 (amended): model selection is a deterministic function of the
text; both "analyze" and "compare" force the complex tier; "send email"
selects the intermediate tier (not easy); a text matching at least one
easy keyword and no complex keyword selects easy; a text matching no
keyword of either list selects intermediate. -/
theorem C4_model_selection_amended :
    (∀ s t : String, s = t → selectModel s = selectModel t) ∧
    (∀ s : String, includes s "analyze" = true → includes s "compare" = true →
      analyzeComplexity s = "complex") ∧
    analyzeComplexity "send email" = "intermediate" ∧
    (∀ s : String, 1 ≤ easyScore s → complexScore s = 0 →
      analyzeComplexity s = "easy") ∧
    (∀ s : String, complexScore s = 0 → easyScore s = 0 →
      analyzeComplexity s = "intermediate") := by
  refine ⟨fun s t h => by rw [h], ?_, rfl, ?_, ?_⟩
  · intro s ha hc
    have h2 := complexScore_ge_two s ha hc
    unfold analyzeComplexity
    rw [if_pos h2]
  · intro s h1 h2
    simp [analyzeComplexity, h1, h2]
  · intro s h1 h2
    simp [analyzeComplexity, h1, h2]

/-- C4 witness: each universally quantified clause of the amended claim
applied at a concrete text, with its hypotheses discharged by
evaluation. -/
theorem C4_witness :
    selectModel "abc" = selectModel "abc" ∧
    analyzeComplexity "analyze and compare files" = "complex" ∧
    analyzeComplexity "reminder" = "easy" ∧
    analyzeComplexity "hello" = "intermediate" :=
  ⟨C4_model_selection_amended.1 "abc" "abc" rfl,
   C4_model_selection_amended.2.1 "analyze and compare files" (by decide) (by decide),
   C4_model_selection_amended.2.2.2.1 "reminder" (by decide) (by decide),
   C4_model_selection_amended.2.2.2.2 "hello" (by decide) (by decide)⟩

/-- C9: `selectModel` returns exactly two identifiers —
`gemini-2.5-pro` precisely for the complex tier, `gemini-2.5-flash` for
both the easy and intermediate tiers (which are therefore
indistinguishable in the chosen model). -/
theorem C9_selectModel_two_models (s : String) :
    selectModel s =
      (if analyzeComplexity s = "complex" then "gemini-2.5-pro"
       else "gemini-2.5-flash") ∧
    (selectModel s = "gemini-2.5-pro" ∨ selectModel s = "gemini-2.5-flash") := by
  rcases analyzeComplexity_total s with h | h | h <;>
    · unfold selectModel
      rw [h]
      exact ⟨by decide, by decide⟩

/-- C9 witness: evaluated at a concrete text. -/
theorem C9_witness :
    selectModel "hello" =
      (if analyzeComplexity "hello" = "complex" then "gemini-2.5-pro"
       else "gemini-2.5-flash") :=
  (C9_selectModel_two_models "hello").1

/-! ## Claims about the LLM Client and Dispatcher (C1, C7) -/

/-- C1: the `callGemini` the class actually exposes (the second,
duplicate definition shadows the retrying one) makes exactly ONE
external call and fails immediately even on a retryable 503 overload —
while the shadowed first definition would have retried and returned the
raw text on attempt 3 with exactly 3 calls and 2 fixed delays.  On a
non-retryable failure both fail permanently after exactly 1 call,
wrapping the cause. -/
theorem C1_effective_callGemini_never_retries :
    callGemini overloadTwiceOracle =
      ⟨some (.error "Failed to call Gemini API: The model is overloaded"), 1, 0⟩ ∧
    callGeminiFirstDef overloadTwiceOracle = ⟨some (.ok "RAW"), 3, 2⟩ ∧
    callGemini nonRetryableOracle =
      ⟨some (.error "Failed to call Gemini API: Bad request"), 1, 0⟩ ∧
    callGeminiFirstDef nonRetryableOracle =
      ⟨some (.error "Failed to call Gemini API: Bad request"), 1, 0⟩ :=
  ⟨rfl, rfl, rfl, rfl⟩

/-- C7: `executeN8nWorkflow` never performs a network call at all.  With
no API key configured it fails on the precondition, as specified; but
with a key configured it fails too — the server file never imports
`axios`, so evaluating `axios.post` raises `ReferenceError: axios is not
defined` before any request is built.  The creation endpoint is never
reached, the execute endpoint never called. -/
theorem C7_dispatcher_never_reaches_network :
    executeN8nWorkflow none (.jobj []) 1 =
      (.error ⟨"N8N_API_KEY not configured in environment variables",
               "Error: N8N_API_KEY not configured in environment variables"⟩, 0) ∧
    executeN8nWorkflow (some "n8n-key") (.jobj []) 1 =
      (.error ⟨"axios is not defined", "ReferenceError: axios is not defined"⟩, 0) ∧
    (∀ (key : Option String) (wf : Json) (tid : Nat),
      (executeN8nWorkflow key wf tid).2 = 0 ∧
      (executeN8nWorkflow key wf tid).1.isOk = false) := by
  refine ⟨rfl, rfl, fun key wf tid => ?_⟩
  cases key <;> exact ⟨rfl, rfl⟩

/-! ## Claim about task creation (C8) -/

/-- C8: with authenticated email, a task text whose trim has length at
least 3 is persisted exactly once with status `pending`, the fresh id,
and a null result; a shorter (or empty) trimmed text is rejected with a
400 message and the state — in particular the task table — is
unchanged. -/
theorem C8_create_task (s : ServerState) (email tk : String)
    (hemail : email ≠ "") :
    (3 ≤ (jsTrim tk).length →
      createTaskRoute s email (some tk) =
        (.created ⟨s.nextId, email, jsTrim tk, "pending", none, "gemini_processing"⟩,
         ⟨s.tasks ++ [⟨s.nextId, email, jsTrim tk, "pending", none,
                       "gemini_processing"⟩],
          s.nextId + 1⟩)) ∧
    ((jsTrim tk).length < 3 →
      ∃ msg, createTaskRoute s email (some tk) = (.badRequest msg, s)) := by
  have he : (email == "") = false := by
    simpa using hemail
  constructor
  · intro h3
    have hne : (jsTrim tk == "") = false := by
      rcases Bool.eq_false_or_eq_true (jsTrim tk == "") with h | h
      · rw [beq_iff_eq] at h
        rw [h] at h3
        simp [String.length] at h3
      · exact h
    unfold createTaskRoute
    rw [he]
    simp only [Bool.false_eq_true, if_false, hne]
    rw [if_neg (by omega)]
  · intro h3
    unfold createTaskRoute
    rw [he]
    simp only [Bool.false_eq_true, if_false]
    by_cases hempty : (jsTrim tk == "") = true
    · rw [hempty]
      exact ⟨"Task content is required", rfl⟩
    · rw [Bool.eq_false_iff.mpr hempty]
      simp only [Bool.false_eq_true, if_false]
      rw [if_pos h3]
      exact ⟨"Task content must be at least 3 characters long", rfl⟩

/-- C8 witness: a valid creation and a rejected one, evaluated
concretely. -/
theorem C8_witness :
    createTaskRoute ⟨[], 1⟩ "a@b.c" (some " abc ") =
      (.created ⟨1, "a@b.c", jsTrim " abc ", "pending", none, "gemini_processing"⟩,
       ⟨[⟨1, "a@b.c", jsTrim " abc ", "pending", none, "gemini_processing"⟩], 2⟩) ∧
    (∃ msg, createTaskRoute ⟨[], 1⟩ "a@b.c" (some "ab") = (.badRequest msg, ⟨[], 1⟩)) := by
  constructor
  · have h := (C8_create_task ⟨[], 1⟩ "a@b.c" " abc " (by decide)).1 (by decide)
    simpa using h
  · exact (C8_create_task ⟨[], 1⟩ "a@b.c" "ab" (by decide)).2 (by decide)

/-! ## Claims about the orchestrator and the status invariant (C2, C3) -/

theorem getTask_updateTask (ts : List Task) (id : Nat) (f : Task → Task)
    (hf : ∀ t, (f t).id = t.id) :
    getTask (updateTask ts id f) id = (getTask ts id).map f := by
  induction ts with
  | nil => rfl
  | cons t ts ih =>
    by_cases h : (t.id == id) = true
    · have hft : ((f t).id == id) = true := by rw [hf t]; exact h
      simp only [getTask, updateTask, List.map_cons, if_pos h, List.find?_cons, hft, h,
        Option.map_some']
      simp [hft]
    · have h' : (t.id == id) = false := Bool.eq_false_iff.mpr h
      simp only [getTask, updateTask] at ih ⊢
      simp only [List.map_cons, if_neg h, List.find?_cons, h']
      simp only [h', Bool.false_eq_true, if_false]
      exact ih

theorem updateTask_updateTask (ts : List Task) (id : Nat) (f1 f2 : Task → Task)
    (hid : ∀ t, (f1 t).id = t.id) :
    updateTask (updateTask ts id f1) id f2 =
      updateTask ts id (fun t => f2 (f1 t)) := by
  unfold updateTask
  rw [List.map_map]
  apply List.map_congr_left
  intro t _
  by_cases h : (t.id == id) = true
  · have h2 : ((f1 t).id == id) = true := by rw [hid t]; exact h
    simp only [Function.comp_apply, if_pos h, if_pos h2]
  · simp only [Function.comp_apply, if_neg h]

theorem all_resultStatusInv_update (ts : List Task) (id : Nat) (f : Task → Task)
    (h : ts.all resultStatusInv = true) (hf : ∀ t, resultStatusInv (f t) = true) :
    (updateTask ts id f).all resultStatusInv = true := by
  rw [List.all_eq_true] at h ⊢
  intro u hu
  obtain ⟨t, ht, rfl⟩ := List.mem_map.mp hu
  by_cases hid : (t.id == id) = true
  · rw [if_pos hid]; exact hf t
  · rw [if_neg hid]; exact h t ht

/-- Every pipeline run that finds its row ends it in a terminal state
with a non-null result (and leaves the other rows untouched), so the
invariant survives a full run. -/
theorem pipeline_preserves_inv (llmO : Nat → CallOutcome) (key : Option String)
    (now : String) (ts : List Task) (id : Nat) (d : String)
    (h : ts.all resultStatusInv = true) :
    (processTaskWithGemini llmO key now ts id d).all resultStatusInv = true := by
  unfold processTaskWithGemini
  by_cases hany : (ts.any fun t => t.id == id) = true
  · rw [if_pos hany]
    unfold pipelineFinish
    split
    · split
      · rw [updateTask_updateTask]
        · exact all_resultStatusInv_update _ _ _ h (fun t => rfl)
        · exact fun t => rfl
      · rw [updateTask_updateTask]
        · exact all_resultStatusInv_update _ _ _ h (fun t => rfl)
        · exact fun t => rfl
    · rw [updateTask_updateTask]
      · exact all_resultStatusInv_update _ _ _ h (fun t => rfl)
      · exact fun t => rfl
  · rw [if_neg hany]
    exact h

/-- C3 counterexample: create a task (pending, null result), then PATCH
its status to `completed` — the endpoint validates the value and the
owner but writes status only, leaving `result` null on a completed
task. -/
theorem C3_counterexample_patch_breaks_invariant :
    getTask ((patchStatusRoute ((createTaskRoute ⟨[], 1⟩ "a@b.c" (some "abc")).2)
        "a@b.c" 1 "completed").2).tasks 1 =
      some ⟨1, "a@b.c", "abc", "completed", none, "gemini_processing"⟩ ∧
    ((patchStatusRoute ((createTaskRoute ⟨[], 1⟩ "a@b.c" (some "abc")).2)
        "a@b.c" 1 "completed").2).tasks.all resultStatusInv = false :=
  ⟨rfl, rfl⟩

/-- C3 (amended): "result is non-null iff status is completed or failed"
is established by task creation and preserved by every full pipeline run
and by the retry route — but NOT by the status-patch endpoint, which
updates the status column alone and can therefore break it (see the
counterexample). -/
theorem C3_invariant_amended :
    (∀ (s : ServerState) (email : String) (tk : Option String),
      s.tasks.all resultStatusInv = true →
      ((createTaskRoute s email tk).2).tasks.all resultStatusInv = true) ∧
    (∀ (llmO : Nat → CallOutcome) (key : Option String) (now : String)
        (ts : List Task) (id : Nat) (d : String),
      ts.all resultStatusInv = true →
      (processTaskWithGemini llmO key now ts id d).all resultStatusInv = true) ∧
    (∀ (llmO : Nat → CallOutcome) (key : Option String) (now : String)
        (s : ServerState) (email : String) (id : Nat),
      s.tasks.all resultStatusInv = true →
      ((retryRoute llmO key now s email id).2).tasks.all resultStatusInv = true) := by
  refine ⟨?_, fun llmO key now ts id d h => pipeline_preserves_inv llmO key now ts id d h, ?_⟩
  · intro s email tk h
    unfold createTaskRoute
    by_cases he : (email == "") = true
    · rw [if_pos he]; exact h
    · rw [if_neg he]
      cases tk with
      | none => exact h
      | some t =>
        dsimp only
        by_cases hb : (jsTrim t == "") = true
        · rw [if_pos hb]; exact h
        · rw [if_neg hb]
          by_cases hlen : (jsTrim t).length < 3
          · rw [if_pos hlen]; exact h
          · rw [if_neg hlen]
            simp only [List.all_append, h, Bool.true_and]
            rfl
  · intro llmO key now s email id h
    unfold retryRoute
    cases hg : getTask s.tasks id with
    | none => exact h
    | some t =>
      dsimp only
      by_cases hm : (t.email != email) = true
      · rw [if_pos hm]; exact h
      · rw [if_neg hm]
        exact pipeline_preserves_inv llmO key now _ id t.task
          (all_resultStatusInv_update _ _ _ h (fun u => rfl))

/-- C3 witness: the three preserved operations evaluated on concrete
states. -/
theorem C3_witness :
    ((createTaskRoute ⟨[], 1⟩ "a@b.c" (some "abc")).2).tasks.all resultStatusInv
        = true ∧
    (processTaskWithGemini llmFailOracle (some "k") "TS"
        [⟨1, "a@b.c", "abc", "pending", none, "gemini_processing"⟩] 1 "abc").all
        resultStatusInv = true ∧
    ((retryRoute llmFailOracle (some "k") "TS"
        ⟨[⟨1, "a@b.c", "abc", "failed", some (.errorP "e" "s" "t"),
           "processing_error"⟩], 2⟩ "a@b.c" 1).2).tasks.all resultStatusInv = true :=
  ⟨C3_invariant_amended.1 ⟨[], 1⟩ "a@b.c" (some "abc") rfl,
   C3_invariant_amended.2.1 llmFailOracle (some "k") "TS"
     [⟨1, "a@b.c", "abc", "pending", none, "gemini_processing"⟩] 1 "abc" rfl,
   C3_invariant_amended.2.2 llmFailOracle (some "k") "TS"
     ⟨[⟨1, "a@b.c", "abc", "failed", some (.errorP "e" "s" "t"),
        "processing_error"⟩], 2⟩ "a@b.c" 1 rfl⟩

/-- C2 counterexample: an LLM-call failure does NOT produce the
error/trace/timestamp payload.  `processTask` swallows the failure and
returns its fallback decision, so the orchestrator takes the declined
branch: type `not_automatable` and the declined-style payload
(gemini_response / provider / model / reason / timestamp) — the payload
the claim says is reserved for a successful `automatable == false`
outcome. -/
theorem C2_counterexample_llm_failure_gets_declined_payload :
    getTask (processTaskWithGemini llmFailOracle (some "k") "TS"
      [⟨1, "a@b.c", "abc", "pending", none, "gemini_processing"⟩] 1 "abc") 1 =
    some ⟨1, "a@b.c", "abc", "failed",
          some (.declinedP fallbackResult "google" none
            (.jstr "Failed to process task with Gemini AI".data) "TS"),
          "not_automatable"⟩ :=
  rfl

/-- C2 (amended): when the pipeline's decision condition fails — which
covers LLM Client failures, Validator failures AND genuine
`automatable == false` decisions, since `processTask` converts the first
two into its fallback decision — the task is failed with the
declined-style payload and type `not_automatable`.  The
error-message/stack/timestamp payload (type `processing_error`) is
written exactly when the LLM and Validator succeed with a truthy
`automatable` and the Dispatcher then throws. -/
theorem C2_failed_payloads_amended (llmO : Nat → CallOutcome) (key : Option String)
    (now : String) (ts : List Task) (id : Nat) (d : String)
    (hpres : (getTask ts id).isSome = true) :
    (((processTask llmO d).success &&
        truthyOpt (jGet (processTask llmO d).result automatableKey)) = false →
      ∃ t0, getTask ts id = some t0 ∧
        getTask (processTaskWithGemini llmO key now ts id d) id =
          some { t0 with
                 status := "failed",
                 result := some (.declinedP (processTask llmO d).result "google"
                   (processTask llmO d).model (declinedReason (processTask llmO d)) now),
                 type := "not_automatable" }) ∧
    (∀ (e : JsError) (n : Nat), ((processTask llmO d).success &&
        truthyOpt (jGet (processTask llmO d).result automatableKey)) = true →
      executeN8nWorkflow key
          ((jGet (processTask llmO d).result workflowKey).getD .jnull) id =
        (.error e, n) →
      ∃ t0, getTask ts id = some t0 ∧
        getTask (processTaskWithGemini llmO key now ts id d) id =
          some { t0 with
                 status := "failed",
                 result := some (.errorP e.message e.stack now),
                 type := "processing_error" }) := by
  obtain ⟨t0, ht0⟩ := Option.isSome_iff_exists.mp hpres
  have ht0' : List.find? (fun t => t.id == id) ts = some t0 := ht0
  have hmem : t0 ∈ ts := List.mem_of_find?_eq_some ht0'
  have hpred := List.find?_some ht0'
  have hany : (ts.any fun t => t.id == id) = true :=
    List.any_eq_true.mpr ⟨t0, hmem, hpred⟩
  constructor
  · intro hcond
    refine ⟨t0, ht0, ?_⟩
    unfold processTaskWithGemini
    rw [if_pos hany]
    unfold pipelineFinish
    rw [if_neg (by rw [hcond]; exact Bool.false_ne_true)]
    rw [updateTask_updateTask]
    · rw [getTask_updateTask]
      · rw [ht0]; rfl
      · exact fun t => rfl
    · exact fun t => rfl
  · intro e n hcond hexec
    refine ⟨t0, ht0, ?_⟩
    unfold processTaskWithGemini
    rw [if_pos hany]
    unfold pipelineFinish
    rw [if_pos hcond, hexec]
    dsimp only
    rw [updateTask_updateTask]
    · rw [getTask_updateTask]
      · rw [ht0]; rfl
      · exact fun t => rfl
    · exact fun t => rfl

/-- C2 witness: both amended branches evaluated concretely — an LLM
failure lands in the declined payload; an automatable decision whose
dispatch throws lands in the error payload. -/
theorem C2_witness :
    (∃ t0, getTask [⟨1, "a@b.c", "abc", "pending", none, "gemini_processing"⟩] 1 =
        some t0 ∧
      getTask (processTaskWithGemini llmFailOracle (some "k") "TS"
          [⟨1, "a@b.c", "abc", "pending", none, "gemini_processing"⟩] 1 "abc") 1 =
        some { t0 with
               status := "failed",
               result := some (.declinedP (processTask llmFailOracle "abc").result
                 "google" (processTask llmFailOracle "abc").model
                 (declinedReason (processTask llmFailOracle "abc")) "TS"),
               type := "not_automatable" }) ∧
    (∃ t0, getTask [⟨2, "a@b.c", "abc", "pending", none, "gemini_processing"⟩] 2 =
        some t0 ∧
      getTask (processTaskWithGemini llmOkOracle (some "k") "TS"
          [⟨2, "a@b.c", "abc", "pending", none, "gemini_processing"⟩] 2 "abc") 2 =
        some { t0 with
               status := "failed",
               result := some (.errorP "axios is not defined"
                 "ReferenceError: axios is not defined" "TS"),
               type := "processing_error" }) :=
  ⟨(C2_failed_payloads_amended llmFailOracle (some "k") "TS"
      [⟨1, "a@b.c", "abc", "pending", none, "gemini_processing"⟩] 1 "abc" rfl).1 rfl,
   (C2_failed_payloads_amended llmOkOracle (some "k") "TS"
      [⟨2, "a@b.c", "abc", "pending", none, "gemini_processing"⟩] 2 "abc" rfl).2
     ⟨"axios is not defined", "ReferenceError: axios is not defined"⟩ 0 rfl rfl⟩

end AutomationBackend
